import Mathlib

/-!
Verification of the `nmnh_ms_tools` georeferencer: a shallow embedding of the
example notebooks (`georeferencer.ipynb`, the database-bootstrap notebook),
the shipped configuration (`.nmtrc`, the example config documents) and of the
georeferencing core described by the specification (Pipes, Orchestrator,
HierarchyResolver, UncertaintyEstimator, ResultCache).  The library modules
themselves (`nmnh_ms_tools.tools.georeferencer`, `nmnh_ms_tools.records`,
the database layers) are not part of the sources of this development; where a
definition covers one of those missing modules it is modelled from the
specification and its doc comment says so.
-/

namespace NmnhMsTools

/-! ## A small model of Python control flow used by the notebooks

The bootstrap notebook wraps `open(...)` calls in `try/except FileNotFoundError`
blocks.  We model the two exception types the cells can raise and the result of
running a block of statements.
-/

/-- Python exception kinds raised by the notebook cells: `FileNotFoundError`
from `open` on a missing file (or raised explicitly), and `KeyError` from a
dict subscript on a missing key. -/
inductive PyExn where
  | fileNotFound
  | keyError
deriving DecidableEq, Repr

/-- Result of running a block of Python statements: a value, or a raised
exception propagating out of the block. -/
inductive PyResult (α : Type) where
  | ok (a : α)
  | exn (e : PyExn)
deriving DecidableEq, Repr

/-- Model of `open(path)`: succeeds when the file exists, raises
`FileNotFoundError` when it does not.  The argument is whether the file
named by the path exists. -/
def pyOpen (fileExists : Bool) : PyResult Unit :=
  if fileExists then .ok () else .exn .fileNotFound

/-- Lookup in a YAML mapping given as the list of its key/value lines in file
order.  YAML parsers keep the last binding when a key is repeated, so the
lookup scans from the end. -/
def yamlLookup (entries : List (String × String)) (k : String) : Option String :=
  (entries.reverse.find? (fun e => e.1 = k)).map (fun e => e.2)

/-- Model of `CONFIG["data"][k]`: a dict subscript returning the configured
path or raising `KeyError` when the key is absent. -/
def subscriptData (cfg : List (String × String)) (k : String) : PyResult String :=
  match yamlLookup cfg k with
  | some v => .ok v
  | none => .exn .keyError

/-! ## Configuration documents

Transcribed from the sources: the `data:` mapping of the shipped `.nmtrc`
(`src/nmnh_ms_tools/_files/config/.nmtrc`, lines 7-18) and the `data:` mapping
of the first example configuration document (`src/unnamed/part_002`,
lines 6-13), which binds `natural_earth` twice and has no `geohelper` key.
-/

/-- The `data:` section of the shipped `.nmtrc` configuration file. -/
def nmtrcData : List (String × String) :=
  [("admin", "~/data/nmnh_ms_tools/geo/admin.sqlite"),
   ("custom", "~/data/nmnh_ms_tools/geo/custom.sqlite"),
   ("geonames", "~/data/nmnh_ms_tools/geo/geonames.sqlite"),
   ("geohelper", "~/data/nmnh_ms_tools/geo/geohelper.sqlite"),
   ("georef_job", "job.sqlite"),
   ("gvp", "~/data/nmnh_ms_tools/geo/GVP_Volcano_List*.xlsx"),
   ("natural_earth", "~/data/nmnh_ms_tools/geo/natural_earth.sqlite"),
   ("thesaurus", "~/data/nmnh_ms_tools/geo/thesaurus.yml"),
   ("taxa_tree", "~/data/nmnh_ms_tools/taxa/geotree.json"),
   ("name_index", "~/data/nmnh_ms_tools/taxa/name_index.json"),
   ("stem_index", "~/data/nmnh_ms_tools/taxa/stem_index.json")]

/-- The `data:` section of the first example configuration document in
`src/unnamed/part_002`: `natural_earth` is bound twice and `geohelper` is
never bound. -/
def exampleConfig1Data : List (String × String) :=
  [("admin", "databases/admin.json"),
   ("custom", "databases/custom.sqlite"),
   ("geonames", "databases/geonames.sqlite"),
   ("georef_data", "databases/georef_data.sqlite"),
   ("georef_job", "job.sqlite"),
   ("natural_earth", "databases/natural_earth.sqlite"),
   ("natural_earth", "databases/thesaurus.yml")]

/-! ## The database-bootstrap notebook cells

Each cell of `src/unnamed/part_000` wraps `open(CONFIG["data"][key])` in
`try/except FileNotFoundError` and rebuilds its database in the `except`
branch.  A cell either completes (recording whether the rebuild branch ran) or
aborts with an uncaught exception.
-/

/-- Outcome of running one bootstrap cell: completion (with the flag saying
whether the rebuild branch was executed) or an uncaught exception aborting the
notebook run. -/
inductive CellOutcome where
  | completed (rebuilt : Bool)
  | aborted (e : PyExn)
deriving DecidableEq, Repr

/-- Dispatch of a `try/except FileNotFoundError: <rebuild>` statement given
the result of the try block: `FileNotFoundError` runs the rebuild branch, any
other exception propagates. -/
def exceptFileNotFound (tryBlock : PyResult Unit) : CellOutcome :=
  match tryBlock with
  | .ok _ => .completed false
  | .exn .fileNotFound => .completed true
  | .exn e => .aborted e

/-- The GeoNames cell of the bootstrap notebook:
`try: open(CONFIG["data"]["geonames"]) except FileNotFoundError:` rebuild via
`init_geonames_db` and `GeoNamesFeatures().from_csv`. -/
def geonamesCell (fileExists : Bool) : CellOutcome :=
  exceptFileNotFound (pyOpen fileExists)

/-- The administrative-division cell of the bootstrap notebook:
`try: open(CONFIG["data"]["admin"]) except FileNotFoundError:` rebuild via
`init_admin_db` and `AdminFeatures().from_csv`; an `else:` branch only calls
`init_admin_db()` without rebuilding. -/
def adminCell (fileExists : Bool) : CellOutcome :=
  exceptFileNotFound (pyOpen fileExists)

/-- The georeferencing-helper cell of the bootstrap notebook:
`try: open(CONFIG["data"]["geohelper"]) except FileNotFoundError:` rebuild via
`init_natural_earth_db`, `init_helper_db` and the three fill functions.  The
dict subscript runs inside the `try`, so a `KeyError` it raises reaches the
handler, which only catches `FileNotFoundError`. -/
def geohelperCell (cfg : List (String × String)) (fileExists : String → Bool) :
    CellOutcome :=
  exceptFileNotFound
    (match subscriptData cfg "geohelper" with
     | .ok path => pyOpen (fileExists path)
     | .exn e => .exn e)

/-- The custom-locality cell of the bootstrap notebook: the try block is
`open(CONFIG["data"]["custom"])` followed by an unconditional
`raise FileNotFoundError`, so the block raises `FileNotFoundError` whether or
not `open` succeeds; the `except FileNotFoundError` branch rebuilds via
`init_custom_db` and the per-CSV `CustomFeatures().from_csv` loop. -/
def customCell (fileExists : Bool) : CellOutcome :=
  exceptFileNotFound
    (match pyOpen fileExists with
     | .ok _ => .exn .fileNotFound
     | .exn e => .exn e)

/-! ## Geometry

Modelled from the spec: the geometry types attached to MatchResults (the
`nmnh_ms_tools` geometry layer is not among the sources).  Coordinates are
EPSG:4326 degree pairs, modelled as rationals.  A geometry is a point or a
polygon ring; topological validity follows the spec's wording "non-empty,
non-self-intersecting": a polygon ring must be non-empty and no two
non-adjacent edges may properly cross.
-/

/-- A coordinate pair (longitude, latitude) modelled on the rationals. -/
abbrev Pt := ℚ × ℚ

/-- Modelled from the spec: the resolved geometry of a match — a point or a
polygon ring given by its vertex list (closed implicitly). -/
inductive Geometry where
  | point (p : Pt)
  | polygon (ring : List Pt)
deriving DecidableEq, Repr

/-- Twice the signed area of the triangle `o a b`; its sign gives the
orientation of `b` relative to the directed line `o → a`. -/
def crossSign (o a b : Pt) : ℚ :=
  (a.1 - o.1) * (b.2 - o.2) - (a.2 - o.2) * (b.1 - o.1)

/-- Whether the open segments `p1p2` and `q1q2` properly cross: each segment's
endpoints lie strictly on opposite sides of the other segment's line. -/
def properCross (p1 p2 q1 q2 : Pt) : Bool :=
  decide (crossSign p1 p2 q1 * crossSign p1 p2 q2 < 0) &&
  decide (crossSign q1 q2 p1 * crossSign q1 q2 p2 < 0)

/-- The directed edges of a closed ring: consecutive vertex pairs plus the
closing edge from the last vertex back to the first. -/
def ringEdges (ring : List Pt) : List (Pt × Pt) :=
  match ring with
  | [] => []
  | p :: _ => ring.zip (ring.drop 1 ++ [p])

/-- Whether a closed ring self-intersects: some pair of distinct,
non-adjacent edges (adjacency includes the wrap-around pair) properly
crosses. -/
def selfIntersects (ring : List Pt) : Bool :=
  let es := ringEdges ring
  let n := es.length
  (List.range n).any (fun i =>
    (List.range n).any (fun j =>
      decide (i + 1 < j) && !(decide (i = 0) && decide (j = n - 1)) &&
        match es.get? i, es.get? j with
        | some e1, some e2 => properCross e1.1 e1.2 e2.1 e2.2
        | _, _ => false))

/-- Topological validity of a geometry, from the spec's invariant: non-empty
and without self-intersections.  Points are always valid; a polygon is valid
when its ring is non-empty and no two non-adjacent edges properly cross. -/
def geometryValid (g : Geometry) : Bool :=
  match g with
  | .point _ => true
  | .polygon ring => !ring.isEmpty && !selfIntersects ring

/-! ## Configured georeferencing parameters

Transcribed from the `georeferencing.params` section of the shipped `.nmtrc`
(lines 20-23).
-/

/-- The `max_sites_to_evaluate` parameter of the shipped `.nmtrc`. -/
def max_sites_to_evaluate : ℕ := 150

/-- The `resize_when_testing_intersection` parameter of the shipped
`.nmtrc`. -/
def resize_when_testing_intersection : ℚ := 11 / 10

/-- The `dist_km_to_extend_sites_offshore` parameter of the shipped
`.nmtrc`. -/
def dist_km_to_extend_sites_offshore : ℚ := 200

/-! ## UncertaintyEstimator

Modelled from the spec: `estimate(geometry, strategy, params) → radius_km`,
with the radius derived from the resolved geometry's own extent and widened by
the `resize_when_testing_intersection` factor.  The extent is modelled as the
largest taxicab distance from the first vertex, on the rationals.
-/

/-- The extent of a geometry: zero for a point, and for a polygon the largest
taxicab distance of a vertex from the first vertex. -/
def geometryExtent (g : Geometry) : ℚ :=
  match g with
  | .point _ => 0
  | .polygon [] => 0
  | .polygon (c :: rest) =>
      (c :: rest).foldr (fun p acc => max acc (|p.1 - c.1| + |p.2 - c.2|)) 0

/-- Modelled from the spec: the UncertaintyEstimator — the radius in km is the
geometry's extent widened by the `resize_when_testing_intersection` factor. -/
def estimate (g : Geometry) : ℚ :=
  geometryExtent g * resize_when_testing_intersection

/-! ## Records, pipes and the Orchestrator

Modelled from the spec: `LocalityRecord`, the Pipe strategy interface
`attempt(record) → MatchResult | no-match`, and the Orchestrator dispatch that
tries the pipes in order with early exit on first success.  The pipe order is
the `pipes` list of `georeferencer.ipynb`:
`MatchManual, MatchPLSS, MatchBetween, MatchBorder, MatchDirection,
MatchCustom, MatchGeoNames` (the `MatchOffshore` entry is commented out).
-/

/-- A locality record: identifier, free-text description, structured hint
fields, and optional existing coordinates. -/
structure Record where
  id : String
  description : String
  fields : List (String × String)
  coords : Option Pt
deriving DecidableEq, Repr

/-- The seven pipe strategies instantiated by the example notebook, in its
`pipes` list order. -/
inductive PipeName where
  | manual
  | plss
  | between
  | border
  | direction
  | custom
  | geoNames
deriving DecidableEq, Repr

/-- Display label of a pipe, used in the citation text. -/
def pipeLabel (p : PipeName) : String :=
  match p with
  | .manual => "MatchManual"
  | .plss => "MatchPLSS"
  | .between => "MatchBetween"
  | .border => "MatchBorder"
  | .direction => "MatchDirection"
  | .custom => "MatchCustom"
  | .geoNames => "MatchGeoNames"

/-- The fixed pipe order of the notebook's `pipes` list. -/
def notebookPipeOrder : List PipeName :=
  [.manual, .plss, .between, .border, .direction, .custom, .geoNames]

/-- Modelled from the spec: the raw outcome of a successful pipe attempt — a
resolved geometry plus the gazetteer feature identifiers it used. -/
structure PipeOutcome where
  geometry : Geometry
  features : List String
deriving DecidableEq, Repr

/-- Modelled from the spec: a MatchResult — resolved geometry, uncertainty
radius in km, textual citation, and the Pipe that produced it. -/
structure MatchResult where
  geometry : Geometry
  radius_km : ℚ
  citation : String
  pipe : PipeName
deriving DecidableEq, Repr

/-- Citation text of a match: the winning pipe's label followed by the cited
feature identifiers. -/
def citationFor (p : PipeName) (o : PipeOutcome) : String :=
  pipeLabel p ++ ": " ++ String.intercalate ", " o.features

/-- Modelled from the spec: construction of a MatchResult from a pipe outcome.
The spec's invariant requires every MatchResult geometry to be valid, so an
outcome with an invalid geometry yields no MatchResult (a hard failure that
falls through to the next pipe); the radius comes from the
UncertaintyEstimator. -/
def mkMatchResult (p : PipeName) (o : PipeOutcome) : Option MatchResult :=
  if geometryValid o.geometry then
    some { geometry := o.geometry, radius_km := estimate o.geometry,
           citation := citationFor p o, pipe := p }
  else none

/-- Modelled from the spec: the Orchestrator's per-record dispatch — pipes are
tried strictly in list order, the first pipe whose attempt yields a valid
MatchResult wins and no later pipe is consulted; a no-match or hard failure
falls through. -/
def orchestrate (attempts : PipeName → Record → Option PipeOutcome) :
    List PipeName → Record → Option MatchResult
  | [], _ => none
  | p :: ps, r =>
      match attempts p r with
      | some o =>
          match mkMatchResult p o with
          | some m => some m
          | none => orchestrate attempts ps r
      | none => orchestrate attempts ps r

/-! ## ResultCache and cache-backed georeferencing

Modelled from the spec: the ResultCache is a keyed map from a normalized query
signature to the resolved candidate list; a lookup first consults the cache
and only queries the gazetteer on a miss, storing the fresh result.  The
gazetteer itself is a read-only query function.
-/

/-- A normalized cache-query signature. -/
abbrev Sig := String

/-- Modelled from the spec: the read-only GazetteerIndex, as a pure query
function from a normalized signature to the matching feature identifiers. -/
structure Gazetteer where
  query : Sig → List String

/-- The ResultCache contents: an association list from signatures to stored
candidate lists (most recent binding first). -/
abbrev Cache := List (Sig × List String)

/-- Cache lookup: the most recently stored value for a signature, if any. -/
def cacheFind (c : Cache) (k : Sig) : Option (List String) :=
  (c.find? (fun e => e.1 = k)).map (fun e => e.2)

/-- Modelled from the spec: a cache-backed gazetteer lookup — return the
cached value on a hit; on a miss query the gazetteer and store the result. -/
def lookupCached (g : Gazetteer) (c : Cache) (k : Sig) : List String × Cache :=
  match cacheFind c k with
  | some v => (v, c)
  | none => (g.query k, (k, g.query k) :: c)

/-- The normalized query signature of a record: its description joined with
its structured hint fields. -/
def signatureOf (r : Record) : Sig :=
  r.description ++ "|" ++ String.intercalate ";" (r.fields.map (fun f => f.1 ++ "=" ++ f.2))

/-- Modelled from the spec: resolution of one record through the cache-backed
gazetteer — look up the record's signature (via the cache) and report the
candidate identifiers found, threading the possibly-grown cache. -/
def georeferenceOne (g : Gazetteer) (c : Cache) (r : Record) :
    (String × List String) × Cache :=
  let vc := lookupCached g c (signatureOf r)
  ((r.id, vc.1), vc.2)

/-- Modelled from the spec: `georeference()` — process the records in input
order, resolving each through the cache-backed gazetteer and threading the
cache; the gazetteer stores are never written. -/
def georeference (g : Gazetteer) (c : Cache) :
    List Record → List (String × List String) × Cache
  | [] => ([], c)
  | r :: rs =>
      let oc := georeferenceOne g c r
      let rest := georeference g oc.2 rs
      (oc.1 :: rest.1, rest.2)

/-- A cache is consistent with a gazetteer when every stored value equals the
gazetteer's answer for its signature. -/
def cacheConsistent (g : Gazetteer) (c : Cache) : Prop :=
  ∀ k v, cacheFind c k = some v → v = g.query k

/-! ## HierarchyResolver

Modelled from the spec: `narrow(candidates, record, ordered_field_list)` walks
the ordered field list; for each field present on the record it filters the
running candidate set to those whose feature or administrative ancestry
matches the field's text under the field's configured feature-code set; the
survivors are then ranked (most specific matched feature code first, smallest
area as tie-break).  The `ordered_field_list` itself is transcribed from the
shipped `.nmtrc` (lines 24-239).
-/

/-- One entry of the configured `ordered_field_list`: a record field name and
its acceptable feature codes. -/
structure FieldSpec where
  field : String
  codes : List String
deriving DecidableEq, Repr

/-- The `ordered_field_list` of the shipped `.nmtrc`, most-specific field
first. -/
def orderedFieldList : List FieldSpec :=
  [⟨"locality", ["A", "H", "L", "P", "R", "S", "T", "U", "V"]⟩,
   ⟨"mine", ["MN", "MNAU", "MNC", "MNCR", "MNCU", "MNFE", "MNN", "MNQ", "MNQR"]⟩,
   ⟨"municipality", ["P"]⟩,
   ⟨"municipality2", ["ADM3", "ADM3H", "ADM4", "ADM4H", "ADM5", "ADM5H"]⟩,
   ⟨"features", ["A", "H", "L", "P", "R", "S", "T", "U", "V"]⟩,
   ⟨"municipality3", ["ADM3", "ADM3H", "ADM4", "ADM4H", "ADM5", "ADM5H",
                      "H", "L", "P", "R", "S", "T", "U", "V"]⟩,
   ⟨"volcano", ["CLDA", "CONE", "CRTR", "VLC", "VLF", "VLS"]⟩,
   ⟨"volcano2", ["HLL", "HLLS", "MT", "MTS", "PK"]⟩,
   ⟨"maps", ["A", "H", "L", "P", "R", "S", "T", "U", "V"]⟩,
   ⟨"water_body", ["BAY", "BAYS", "BGHT", "COVE", "INLT", "GULF", "H", "SD", "SEA", "OCN"]⟩,
   ⟨"island", ["ATOL", "ISL", "ISLET", "ISLF", "ISLM", "ISLS", "ISLT",
               "RK", "RKS", "SMU", "SMSU", "TMSU", "TMTU"]⟩,
   ⟨"mining_district", ["MNA"]⟩,
   ⟨"mining_district2", ["A", "H", "L", "P", "R", "S", "T", "U", "V"]⟩,
   ⟨"bay_sound", ["BAY", "BAYS", "BGHT", "COVE", "FJD", "FJDS", "GULF",
                  "LGN", "LGNS", "INLT", "INLTQ", "SD", "SEA", "SHOR"]⟩,
   ⟨"county", ["ADM2", "ADM2H"]⟩,
   ⟨"county2", ["ADM3", "ADM3H", "ADM4", "ADM4H", "ADM5"]⟩,
   ⟨"county3", ["MNA"]⟩,
   ⟨"island_group", ["ATOL", "ISL", "ISLET", "ISLF", "ISLM", "ISLS", "ISLT",
                     "RK", "RKS", "SMU", "SMSU", "TMSU", "TMTU"]⟩,
   ⟨"state_province", ["ADM1", "ADM1H", "TERR", "LAND", "RGN"]⟩,
   ⟨"state_province2", ["L"]⟩,
   ⟨"country", ["PCL", "PCLD", "PCLF", "PCLH", "PCLI", "PCLIX", "PCLS", "TERR"]⟩,
   ⟨"sea_gulf", ["BAY", "BAYS", "BGHT", "COVE", "FJD", "FJDS", "GULF",
                 "LGN", "LGNS", "INLT", "INLTQ", "SD", "SEA", "SHOR"]⟩,
   ⟨"ocean", ["OCN"]⟩,
   ⟨"continent", ["CONT", "REG"]⟩]

/-- A gazetteer feature: identifier, canonical name and feature code. -/
structure Feature where
  fid : String
  name : String
  code : String
deriving DecidableEq, Repr

/-- Modelled from the spec: a Candidate — a gazetteer feature together with
its containing administrative ancestry, the specificity rank of its matched
feature code (higher is more specific) and the area of its geometry (used as
the final tie-break). -/
structure Candidate where
  feature : Feature
  ancestry : List Feature
  specificity : ℕ
  area : ℚ
deriving DecidableEq, Repr

/-- Lookup of a structured hint field on a record's field list (first binding
wins). -/
def lookupField (record : List (String × String)) (f : String) : Option String :=
  (record.find? (fun e => e.1 = f)).map (fun e => e.2)

/-- Whether a candidate is compatible with a hierarchy field bearing text `v`
under field spec `fs`: its own feature, or a feature of its administrative
ancestry, carries that name with a code in the spec's code set. -/
def fieldMatches (fs : FieldSpec) (v : String) (c : Candidate) : Bool :=
  (c.feature :: c.ancestry).any (fun ft => ft.name = v && fs.codes.contains ft.code)

/-- Modelled from the spec: the filtering walk of `narrow` — for each entry of
the ordered field list that is present on the record, keep only the candidates
compatible with it; absent fields are skipped. -/
def applyFilters (record : List (String × String)) :
    List FieldSpec → List Candidate → List Candidate
  | [], cs => cs
  | fs :: rest, cs =>
      match lookupField record fs.field with
      | some v => applyFilters record rest (cs.filter (fieldMatches fs v))
      | none => applyFilters record rest cs

/-- The ranking order on surviving candidates: more specific matched feature
code first, then smaller area. -/
def candLE (a b : Candidate) : Bool :=
  decide (b.specificity < a.specificity) ||
    (decide (a.specificity = b.specificity) && decide (a.area ≤ b.area))

/-- Stable insertion of an element into a list sorted by `le`. -/
def insertLe {α : Type} (le : α → α → Bool) (x : α) : List α → List α
  | [] => [x]
  | y :: ys => if le x y then x :: y :: ys else y :: insertLe le x ys

/-- Stable insertion sort by `le`. -/
def sortLe {α : Type} (le : α → α → Bool) : List α → List α
  | [] => []
  | x :: xs => insertLe le x (sortLe le xs)

/-- Modelled from the spec: `narrow(candidates, record, ordered_field_list)` —
filter the candidates through every hierarchy field present on the record,
then rank the survivors deterministically. -/
def narrow (cands : List Candidate) (record : List (String × String))
    (fields : List FieldSpec) : List Candidate :=
  sortLe candLE (applyFilters record fields cands)

/-! ## Batch evaluation and the results.csv export

The export loop is transcribed from the last cell of `georeferencer.ipynb`: it
iterates `geo.evaluated.values()`, builds a row from the entry's site
geometry, `radius_km` and `description`, and skips the entry on any `KeyError`
(`except KeyError: pass`).  The batch bookkeeping itself (which entries end up
in `geo.evaluated`) is modelled from the spec: a matched record's entry
carries its MatchResult data; an EXHAUSTED record appears only when
`include_failed` is set, with no geometry, no radius and a failure
description.
-/

/-- One entry of `geo.evaluated`: the record identifier and the optional
geometry, radius and description keys; a missing key raises `KeyError` in the
export loop. -/
structure EvalEntry where
  location_id : String
  geometry : Option Geometry
  radius_km : Option ℚ
  description : Option String
deriving DecidableEq, Repr

/-- A row of `results.csv` as written by the export cell. -/
structure CsvRow where
  record_number : String
  geometry : Geometry
  radius_km : ℚ
  description : String
deriving DecidableEq, Repr

/-- Modelled from the spec: the per-record bookkeeping of the Orchestrator's
batch run — a matched record yields an entry with its MatchResult fields; an
EXHAUSTED record yields a failure entry (no geometry, no radius) when
`include_failed` is set and no entry otherwise. -/
def evaluateBatch (attempts : PipeName → Record → Option PipeOutcome)
    (include_failed : Bool) (records : List Record) : List EvalEntry :=
  records.filterMap (fun r =>
    match orchestrate attempts notebookPipeOrder r with
    | some m =>
        some { location_id := r.id, geometry := some m.geometry,
               radius_km := some m.radius_km, description := some m.citation }
    | none =>
        if include_failed then
          some { location_id := r.id, geometry := none, radius_km := none,
                 description := some ("Georeference failed: " ++ r.description) }
        else none)

/-- The body of the export loop for one entry: build the row from the entry's
geometry, radius and description; any missing key raises `KeyError`, which the
surrounding `except KeyError: pass` turns into skipping the entry. -/
def exportRow (e : EvalEntry) : Option CsvRow :=
  match e.geometry, e.radius_km, e.description with
  | some g, some r, some d =>
      some { record_number := e.location_id, geometry := g, radius_km := r,
             description := d }
  | _, _, _ => none

/-- The `results.csv` export cell of `georeferencer.ipynb`: one row per
evaluated entry, entries that raise `KeyError` silently skipped. -/
def exportResults (entries : List EvalEntry) : List CsvRow :=
  entries.filterMap exportRow

/-! ## The notebook's class-level setup

Transcribed from the setup cell of `georeferencer.ipynb`: the cell assigns
`Site.pipe = MatchGeoNames()` under the comment "Set required class
attributes", builds the explicit `pipes` list passed to the `Georeferencer`
constructor, and — when `tests is None` — enables SQLite caches through the
class-level calls `MatchGeoNames.enable_sqlite_cache("caches/records.sqlite")`
and `Site.enable_sqlite_cache("caches/localities.sqlite")`.
-/

/-- The class-level state established by the notebook's setup cell: the
default pipe assigned onto the shared `Site` record class and the class-level
SQLite-cache enablement calls performed. -/
structure SetupState where
  site_class_pipe : Option PipeName
  class_cache_toggles : List (String × String)
deriving DecidableEq, Repr

/-- The setup cell of `georeferencer.ipynb`, as a function of the `tests`
variable (`None` in the notebook): it always assigns `Site.pipe =
MatchGeoNames()` and, when `tests is None`, calls the two class-level
`enable_sqlite_cache` toggles. -/
def notebookSetup (testsIsNone : Bool) : SetupState :=
  { site_class_pipe := some .geoNames,
    class_cache_toggles :=
      if testsIsNone then
        [("MatchGeoNames", "caches/records.sqlite"),
         ("Site", "caches/localities.sqlite")]
      else [] }

/-- The explicit `pipes` list the notebook passes to the `Georeferencer`
constructor. -/
def notebookPipesArgument : List PipeName := notebookPipeOrder

/-! ## Offshore extension of Direction-pipe points

Modelled from the spec: when a Direction-pipe projected point falls in water
it may be extended offshore, with `dist_km_to_extend_sites_offshore` treated
as a hard cap — beyond the cap the pipe fails closed (no match) rather than
silently extending further.
-/

/-- Modelled from the spec: the offshore extension applied to a Direction-pipe
point that falls in water — the required extension distance is granted when it
is within the configured cap, and the pipe fails closed (`none`) beyond it. -/
def extendOffshore (cap d : ℚ) : Option ℚ :=
  if d ≤ cap then some d else none

/-! ## Cache coalescing under concurrency

Modelled from the spec: the ResultCache must enforce at-most-one in-flight
computation per cache key — the first caller of a signature installs an
in-flight marker and performs the single underlying gazetteer query; later
callers of the same signature either wait on the marker or read the stored
result.  Concurrency is modelled as an interleaving semantics: a scheduler
picks which thread steps next, and the property is proved over every
schedule.
-/

/-- The state of one lookup thread: about to look up key `k`, waiting on an
in-flight computation of `k`, computing `k` itself, or finished with a
value. -/
inductive ThreadState where
  | start (k : ℕ)
  | waiting (k : ℕ)
  | computing (k : ℕ)
  | finished (v : List String)
deriving DecidableEq, Repr

/-- The shared cache under the coalescing protocol: per key, either absent,
in-flight (`none`) or settled with a value (`some v`). -/
abbrev CoCache := List (ℕ × Option (List String))

/-- Lookup in the coalescing cache: `none` when the key is absent,
`some none` when in-flight, `some (some v)` when settled. -/
def coFind (c : CoCache) (k : ℕ) : Option (Option (List String)) :=
  (c.find? (fun e => e.1 = k)).map (fun e => e.2)

/-- Settle an in-flight cache entry with its computed value. -/
def coSettle (c : CoCache) (k : ℕ) (v : List String) : CoCache :=
  c.map (fun e => if e.1 = k then (e.1, some v) else e)

/-- One global state of the coalescing protocol: the thread pool, the shared
cache, and the log of underlying gazetteer queries issued so far (by key). -/
structure CoState where
  threads : List ThreadState
  cache : CoCache
  queries : List ℕ
deriving DecidableEq, Repr

/-- Modelled from the spec: one atomic step of thread `i` under the
coalescing protocol.  A starting thread returns a settled value directly,
waits on an in-flight marker, or — when the key is absent — atomically
installs the marker and issues the single underlying gazetteer query; a
computing thread settles the entry with the gazetteer's answer; a waiting
thread finishes once the entry is settled.  Out-of-range indices and finished
threads do nothing. -/
def stepThread (g : ℕ → List String) (s : CoState) (i : ℕ) : CoState :=
  match s.threads.get? i with
  | some (.start k) =>
      match coFind s.cache k with
      | some (some v) => { s with threads := s.threads.set i (.finished v) }
      | some none => { s with threads := s.threads.set i (.waiting k) }
      | none =>
          { threads := s.threads.set i (.computing k),
            cache := (k, none) :: s.cache,
            queries := k :: s.queries }
  | some (.computing k) =>
      { s with threads := s.threads.set i (.finished (g k)),
               cache := coSettle s.cache k (g k) }
  | some (.waiting k) =>
      match coFind s.cache k with
      | some (some v) => { s with threads := s.threads.set i (.finished v) }
      | _ => s
  | _ => s

/-- Run the coalescing protocol under a schedule: the schedule lists, in
order, the index of the thread that steps next. -/
def runSchedule (g : ℕ → List String) (s : CoState) (sched : List ℕ) : CoState :=
  sched.foldl (stepThread g) s

/-- The initial protocol state for a given thread pool: empty cache, no
queries issued. -/
def initCoState (threads : List ThreadState) : CoState :=
  { threads := threads, cache := [], queries := [] }

/-! ## Theorems -/

/-- Claim C9: the custom-locality bootstrap cell rebuilds the custom store on
every execution regardless of whether the database file exists — after a
successful `open` it unconditionally raises `FileNotFoundError`, so the
`except` branch (`init_custom_db` plus the CSV re-import loop) always runs —
whereas the geonames, admin, and geohelper cells rebuild only when their file
is missing. -/
theorem custom_cell_always_rebuilds :
    ∀ fileExists : Bool,
      customCell fileExists = .completed true ∧
      geonamesCell fileExists = .completed (!fileExists) ∧
      adminCell fileExists = .completed (!fileExists) ∧
      ∀ fe : String → Bool,
        geohelperCell nmtrcData fe =
          .completed (!(fe "~/data/nmnh_ms_tools/geo/geohelper.sqlite")) := by
  intro ex
  refine ⟨?_, ?_, ?_, ?_⟩
  · cases ex <;> rfl
  · cases ex <;> rfl
  · cases ex <;> rfl
  · intro fe
    have hsub : subscriptData nmtrcData "geohelper" =
        .ok "~/data/nmnh_ms_tools/geo/geohelper.sqlite" := by rfl
    cases hfe : fe "~/data/nmnh_ms_tools/geo/geohelper.sqlite" <;>
      simp [geohelperCell, hsub, pyOpen, exceptFileNotFound, hfe]

/-- Claim C10: the first configuration document of `src/unnamed/part_002`
binds `natural_earth` twice under `data` (so the later value
`databases/thesaurus.yml` shadows `databases/natural_earth.sqlite`) and binds
no `geohelper` key; under that configuration the bootstrap cell evaluating
`open(CONFIG["data"]["geohelper"])` raises `KeyError`, which its
`except FileNotFoundError` handler does not catch, so the bootstrap run
aborts. -/
theorem example_config_geohelper_keyerror :
    (exampleConfig1Data.filter (fun e => e.1 = "natural_earth")).length = 2 ∧
    yamlLookup exampleConfig1Data "natural_earth" = some "databases/thesaurus.yml" ∧
    yamlLookup exampleConfig1Data "geohelper" = none ∧
    ∀ fe : String → Bool,
      geohelperCell exampleConfig1Data fe = .aborted .keyError := by
  refine ⟨by decide, by decide, by decide, fun fe => rfl⟩

/-- Claim C7: the offshore extension applied to a Direction-pipe point that
falls in water is bounded above by the configured
`dist_km_to_extend_sites_offshore` (200 km in the shipped configuration), and
beyond that cap the pipe fails closed, reporting no match rather than silently
extending further. -/
theorem direction_offshore_cap (d : ℚ) :
    dist_km_to_extend_sites_offshore = 200 ∧
    (∀ e, extendOffshore dist_km_to_extend_sites_offshore d = some e →
      e ≤ dist_km_to_extend_sites_offshore) ∧
    (dist_km_to_extend_sites_offshore < d →
      extendOffshore dist_km_to_extend_sites_offshore d = none) := by
  refine ⟨rfl, ?_, ?_⟩
  · intro e he
    unfold extendOffshore at he
    split at he
    · cases he
      assumption
    · cases he
  · intro hd
    unfold extendOffshore
    rw [if_neg (not_le.mpr hd)]

/-- Witness for the offshore-cap theorem at the concrete distances 150 km
(granted, within the cap) and 300 km (refused, beyond the cap). -/
theorem direction_offshore_cap_witness :
    (extendOffshore dist_km_to_extend_sites_offshore 150 = some 150 ∧
      (150 : ℚ) ≤ dist_km_to_extend_sites_offshore) ∧
    (dist_km_to_extend_sites_offshore < 300 ∧
      extendOffshore dist_km_to_extend_sites_offshore 300 = none) :=
  ⟨⟨rfl, (direction_offshore_cap 150).2.1 150 rfl⟩,
   ⟨by norm_num [dist_km_to_extend_sites_offshore],
    (direction_offshore_cap 300).2.2
      (by norm_num [dist_km_to_extend_sites_offshore])⟩⟩

/-- Counterexample to claim C6: in the notebook run (`tests is None`), it is
not the case that no default Pipe is assigned onto the shared record class and
no class-level cache toggle is used — the setup cell assigns
`Site.pipe = MatchGeoNames()` and performs two class-level
`enable_sqlite_cache` calls. -/
theorem notebook_class_state_counterexample :
    ¬ ((notebookSetup true).site_class_pipe = none ∧
       (notebookSetup true).class_cache_toggles = []) := by
  decide

/-- Claim C6 as amended: the pipes list passed to the Georeferencer is the
explicit seven-pipe list, but the notebook additionally assigns a required
class-level default pipe onto the shared `Site` record class
(`Site.pipe = MatchGeoNames()`) and, when `tests is None`, enables SQLite
caches through class-level toggles on `MatchGeoNames` and `Site`; shared
class-level state is therefore present, exactly as the spec's design notes
flag for replacement. -/
theorem notebook_class_state_amended :
    notebookPipesArgument = [.manual, .plss, .between, .border, .direction,
      .custom, .geoNames] ∧
    (notebookSetup true).site_class_pipe = some PipeName.geoNames ∧
    (notebookSetup true).class_cache_toggles =
      [("MatchGeoNames", "caches/records.sqlite"),
       ("Site", "caches/localities.sqlite")] ∧
    (notebookSetup false).site_class_pipe = some PipeName.geoNames ∧
    (notebookSetup false).class_cache_toggles = [] := by
  refine ⟨rfl, rfl, rfl, rfl, rfl⟩

/-- Pipes that all fail on a record are skipped by the Orchestrator's
dispatch. -/
theorem orchestrate_append_fail
    (attempts : PipeName → Record → Option PipeOutcome) (r : Record)
    (pre rest : List PipeName) (hfail : ∀ q ∈ pre, attempts q r = none) :
    orchestrate attempts (pre ++ rest) r = orchestrate attempts rest r := by
  induction pre with
  | nil => rfl
  | cons p ps ih =>
      have hp : attempts p r = none := hfail p (List.mem_cons_self p ps)
      simp only [List.cons_append, orchestrate, hp]
      exact ih (fun q hq => hfail q (List.mem_cons_of_mem p hq))

/-- Claim C1: the Orchestrator tries the Pipes in the fixed priority order
Manual, PLSS, Between, Border, Direction, Custom, GeoNames (the notebook's
`pipes` list); the first Pipe whose attempt succeeds determines the
MatchResult, the result's citation names that winning Pipe, and no later Pipe
is tried for the record — the outcome is unchanged under any reassignment of
the later pipes' behaviour. -/
theorem pipe_priority_first_success
    (attempts : PipeName → Record → Option PipeOutcome) (r : Record)
    (pre post : List PipeName) (p : PipeName) (o : PipeOutcome)
    (horder : notebookPipeOrder = pre ++ p :: post)
    (hfail : ∀ q ∈ pre, attempts q r = none)
    (hsucc : attempts p r = some o)
    (hval : geometryValid o.geometry = true) :
    orchestrate attempts notebookPipeOrder r =
      some { geometry := o.geometry, radius_km := estimate o.geometry,
             citation := citationFor p o, pipe := p } ∧
    (∀ m, orchestrate attempts notebookPipeOrder r = some m →
      m.pipe = p ∧ m.citation = citationFor p o) ∧
    (∀ attempts' : PipeName → Record → Option PipeOutcome,
      (∀ q ∈ pre, attempts' q r = none) → attempts' p r = some o →
      orchestrate attempts' notebookPipeOrder r =
        orchestrate attempts notebookPipeOrder r) := by
  have hrun : ∀ att : PipeName → Record → Option PipeOutcome,
      (∀ q ∈ pre, att q r = none) → att p r = some o →
      orchestrate att notebookPipeOrder r =
        some { geometry := o.geometry, radius_km := estimate o.geometry,
               citation := citationFor p o, pipe := p } := by
    intro att hf hs
    rw [horder, orchestrate_append_fail att r pre (p :: post) hf]
    simp only [orchestrate, hs, mkMatchResult, hval, if_true]
  have h1 := hrun attempts hfail hsucc
  refine ⟨h1, ?_, ?_⟩
  · intro m hm
    rw [h1] at hm
    cases hm
    exact ⟨rfl, rfl⟩
  · intro attempts' hf' hs'
    rw [hrun attempts' hf' hs', h1]

/-- A concrete pipe-behaviour assignment for the witnesses: every pipe fails
except PLSS, which resolves to a fixed point geometry citing one feature. -/
def plssOnlyAttempts : PipeName → Record → Option PipeOutcome :=
  fun q _ => if q = .plss then some ⟨.point (0, 0), ["PLSS:T5N-R3E-S12"]⟩ else none

/-- A concrete record for the witnesses. -/
def witnessRecord : Record :=
  { id := "r0", description := "Sec 12 T5N R3E", fields := [], coords := none }

/-- Witness for the pipe-priority theorem: with Manual failing and PLSS
succeeding on the concrete record, the orchestrator returns the PLSS result. -/
theorem pipe_priority_first_success_witness :
    orchestrate plssOnlyAttempts notebookPipeOrder witnessRecord =
      some { geometry := .point (0, 0), radius_km := estimate (.point (0, 0)),
             citation := citationFor .plss ⟨.point (0, 0), ["PLSS:T5N-R3E-S12"]⟩,
             pipe := .plss } :=
  (pipe_priority_first_success plssOnlyAttempts witnessRecord
    [.manual] [.between, .border, .direction, .custom, .geoNames] .plss
    ⟨.point (0, 0), ["PLSS:T5N-R3E-S12"]⟩ rfl (by decide) rfl rfl).1

/-- The taxicab extent of a geometry is non-negative. -/
theorem geometryExtent_nonneg (g : Geometry) : 0 ≤ geometryExtent g := by
  have haux : ∀ (l : List Pt) (c : Pt),
      0 ≤ l.foldr (fun p acc => max acc (|p.1 - c.1| + |p.2 - c.2|)) 0 := by
    intro l c
    induction l with
    | nil => exact le_refl 0
    | cons p ps ih => exact le_trans ih (le_max_left _ _)
  cases g with
  | point p => exact le_refl 0
  | polygon ring =>
      cases ring with
      | nil => exact le_refl 0
      | cons c rest => exact haux (c :: rest) c

/-- The modelled uncertainty estimate is non-negative. -/
theorem estimate_nonneg (g : Geometry) : 0 ≤ estimate g :=
  mul_nonneg (geometryExtent_nonneg g) (by norm_num [resize_when_testing_intersection])

/-- Claim C2: every MatchResult the Orchestrator produces has a non-negative
uncertainty radius and a topologically valid (non-empty,
non-self-intersecting) geometry. -/
theorem match_result_invariants
    (attempts : PipeName → Record → Option PipeOutcome)
    (order : List PipeName) (r : Record) (m : MatchResult)
    (h : orchestrate attempts order r = some m) :
    0 ≤ m.radius_km ∧ geometryValid m.geometry = true := by
  induction order with
  | nil => cases h
  | cons p ps ih =>
      rw [orchestrate] at h
      cases hp : attempts p r with
      | none =>
          simp only [hp] at h
          exact ih h
      | some o =>
          simp only [hp] at h
          cases hmk : mkMatchResult p o with
          | none =>
              simp only [hmk] at h
              exact ih h
          | some m' =>
              simp only [hmk] at h
              cases h
              unfold mkMatchResult at hmk
              split at hmk
              · cases hmk
                exact ⟨estimate_nonneg o.geometry, by assumption⟩
              · cases hmk

/-- Witness for the MatchResult invariants at the concrete PLSS run: the
resolved radius is non-negative and the geometry is valid. -/
theorem match_result_invariants_witness :
    0 ≤ (MatchResult.mk (.point (0, 0)) (estimate (.point (0, 0)))
          (citationFor .plss ⟨.point (0, 0), ["PLSS:T5N-R3E-S12"]⟩) .plss).radius_km ∧
    geometryValid (MatchResult.mk (.point (0, 0)) (estimate (.point (0, 0)))
          (citationFor .plss ⟨.point (0, 0), ["PLSS:T5N-R3E-S12"]⟩) .plss).geometry = true :=
  match_result_invariants plssOnlyAttempts notebookPipeOrder witnessRecord _ rfl

/-- Cache lookup on a freshly stored entry: the new binding answers its own
signature and every other signature falls through to the old cache. -/
theorem cacheFind_cons (k : Sig) (v : List String) (c : Cache) (k' : Sig) :
    cacheFind ((k, v) :: c) k' = if k = k' then some v else cacheFind c k' := by
  by_cases h : k = k' <;> simp [cacheFind, List.find?_cons, h]

/-- A cache-backed lookup on a consistent cache returns the gazetteer's
answer, keeps the cache consistent, and only populates (never rewrites)
entries. -/
theorem lookupCached_spec (g : Gazetteer) (c : Cache) (k : Sig)
    (hc : cacheConsistent g c) :
    (lookupCached g c k).1 = g.query k ∧
    cacheConsistent g (lookupCached g c k).2 ∧
    ∀ k' v, cacheFind c k' = some v →
      cacheFind (lookupCached g c k).2 k' = some v := by
  unfold lookupCached
  cases hf : cacheFind c k with
  | some v =>
      exact ⟨(hc k v hf).symm ▸ rfl, hc, fun k' v' h => h⟩
  | none =>
      refine ⟨rfl, ?_, ?_⟩
      · intro k' v' hfind
        rw [cacheFind_cons] at hfind
        split at hfind
        · next heq =>
            cases hfind
            rw [heq]
        · exact hc k' v' hfind
      · intro k' v' hv
        rw [cacheFind_cons]
        split
        · next heq =>
            rw [heq] at hf
            rw [hf] at hv
            cases hv
        · exact hv

/-- On a consistent cache, `georeference` returns the pure per-record
gazetteer answers, keeps the cache consistent, and only populates entries. -/
theorem georeference_pure (g : Gazetteer) (rs : List Record) (c : Cache)
    (hc : cacheConsistent g c) :
    (georeference g c rs).1 = rs.map (fun r => (r.id, g.query (signatureOf r))) ∧
    cacheConsistent g (georeference g c rs).2 ∧
    ∀ k v, cacheFind c k = some v →
      cacheFind (georeference g c rs).2 k = some v := by
  induction rs generalizing c with
  | nil => exact ⟨rfl, hc, fun k v h => h⟩
  | cons r rest ih =>
      obtain ⟨hval, hcons, hpres⟩ := lookupCached_spec g c (signatureOf r) hc
      obtain ⟨ih1, ih2, ih3⟩ := ih (lookupCached g c (signatureOf r)).2 hcons
      refine ⟨?_, ?_, ?_⟩
      · simp only [georeference, georeferenceOne, List.map_cons]
        rw [hval, ih1]
      · simpa only [georeference, georeferenceOne] using ih2
      · intro k v hv
        simpa only [georeference, georeferenceOne] using ih3 k v (hpres k v hv)

/-- Claim C3: re-invoking `georeference()` with the same records, unchanged
gazetteer store and unchanged (consistent) cache yields bit-identical results
— the result list is the pure per-record gazetteer answer, independent of the
cache contents, so a re-run on the cache produced by the first run returns the
identical result list — and the run never mutates the gazetteer (it is
consumed read-only) or the cache beyond population: every pre-existing cache
entry is preserved unchanged and the grown cache stays consistent. -/
theorem georeference_idempotent (g : Gazetteer) (rs : List Record) (c : Cache)
    (hc : cacheConsistent g c) :
    (georeference g c rs).1 = rs.map (fun r => (r.id, g.query (signatureOf r))) ∧
    (georeference g (georeference g c rs).2 rs).1 = (georeference g c rs).1 ∧
    cacheConsistent g (georeference g c rs).2 ∧
    ∀ k v, cacheFind c k = some v →
      cacheFind (georeference g c rs).2 k = some v := by
  obtain ⟨h1, h2, h3⟩ := georeference_pure g rs c hc
  obtain ⟨h1', _, _⟩ := georeference_pure g rs (georeference g c rs).2 h2
  exact ⟨h1, by rw [h1', h1], h2, h3⟩

/-- A concrete read-only gazetteer for the witnesses. -/
def witnessGazetteer : Gazetteer :=
  { query := fun s => [s ++ ":match"] }

/-- Witness for the idempotence theorem: one concrete record georeferenced
from the empty (vacuously consistent) cache, and re-run on the populated
cache, yields the identical result list. -/
theorem georeference_idempotent_witness :
    (georeference witnessGazetteer [] [witnessRecord]).1 =
      [witnessRecord].map
        (fun r => (r.id, witnessGazetteer.query (signatureOf r))) ∧
    (georeference witnessGazetteer
        (georeference witnessGazetteer [] [witnessRecord]).2 [witnessRecord]).1 =
      (georeference witnessGazetteer [] [witnessRecord]).1 :=
  ⟨(georeference_idempotent witnessGazetteer [witnessRecord] []
      (by intro k v h; simp [cacheFind] at h)).1,
   (georeference_idempotent witnessGazetteer [witnessRecord] []
      (by intro k v h; simp [cacheFind] at h)).2.1⟩

/-- The coalescing invariant: for every key, the number of underlying
gazetteer queries issued so far is one exactly when the key has a cache entry
(in-flight or settled) and zero otherwise. -/
def coInv (s : CoState) : Prop :=
  ∀ k, s.queries.count k = if (coFind s.cache k).isSome then 1 else 0

/-- Coalescing-cache lookup on a freshly installed entry. -/
theorem coFind_cons (k : ℕ) (w : Option (List String)) (c : CoCache) (k' : ℕ) :
    coFind ((k, w) :: c) k' = if k = k' then some w else coFind c k' := by
  by_cases h : k = k' <;> simp [coFind, List.find?_cons, h]

/-- Mapping a key-preserving function over an association list does not
change which keys a `find?` by key can locate. -/
theorem isSome_find?_map_key {β : Type} (f : ℕ × β → ℕ × β)
    (hf : ∀ e, (f e).1 = e.1) (c : List (ℕ × β)) (k' : ℕ) :
    ((c.map f).find? (fun e => e.1 = k')).isSome =
      (c.find? (fun e => e.1 = k')).isSome := by
  induction c with
  | nil => rfl
  | cons a c ih =>
      simp only [List.map_cons, List.find?_cons, hf a]
      cases decide (a.1 = k') with
      | true => rfl
      | false => exact ih

/-- Settling an in-flight entry never adds or removes a cache entry. -/
theorem coFind_coSettle (c : CoCache) (k : ℕ) (v : List String) (k' : ℕ) :
    (coFind (coSettle c k v) k').isSome = (coFind c k').isSome := by
  have hf : ∀ e : ℕ × Option (List String),
      ((if e.1 = k then (e.1, some v) else e) : ℕ × Option (List String)).1 = e.1 := by
    intro e
    by_cases h : e.1 = k <;> simp [h]
  unfold coFind coSettle
  rw [Option.isSome_map', Option.isSome_map']
  exact isSome_find?_map_key (fun e => if e.1 = k then (e.1, some v) else e) hf c k'

/-- Every step of the coalescing protocol preserves the invariant: only the
none-to-in-flight transition issues a query, and it installs the entry in the
same atomic step. -/
theorem stepThread_inv (g : ℕ → List String) (s : CoState) (i : ℕ)
    (h : coInv s) : coInv (stepThread g s i) := by
  unfold stepThread
  cases hti : s.threads.get? i with
  | none => exact h
  | some t =>
      cases t with
      | start k =>
          dsimp only
          cases hcf : coFind s.cache k with
          | some w =>
              cases w with
              | some v => exact h
              | none => exact h
          | none =>
              intro k'
              simp only [List.count_cons, coFind_cons]
              by_cases hk : k = k'
              · subst hk
                have hq := h k
                rw [hcf] at hq
                simp only [Option.isSome_none, Bool.false_eq_true, if_false] at hq
                simp [hq]
              · have hq := h k'
                simp only [beq_iff_eq, if_neg hk, add_zero]
                exact hq
      | computing k =>
          dsimp only
          intro k'
          simp only [coFind_coSettle]
          exact h k'
      | waiting k =>
          dsimp only
          cases hcf : coFind s.cache k with
          | some w =>
              cases w with
              | some v => exact h
              | none => exact h
          | none => exact h
      | finished v => exact h

/-- The coalescing invariant holds after any schedule. -/
theorem runSchedule_inv (g : ℕ → List String) (sched : List ℕ) (s : CoState)
    (h : coInv s) : coInv (runSchedule g s sched) := by
  induction sched generalizing s with
  | nil => exact h
  | cons i rest ih => exact ih (stepThread g s i) (stepThread_inv g s i h)

/-- Claim C8: under every interleaving of the lookup threads, the coalescing
protocol issues at most one underlying gazetteer query per key — the first
caller installs the in-flight marker and performs the single computation,
every other caller awaits the stored result — and once the key has a cache
entry the query count for it is exactly one. -/
theorem cache_coalescing (g : ℕ → List String) (threads : List ThreadState)
    (sched : List ℕ) (k : ℕ) :
    (runSchedule g (initCoState threads) sched).queries.count k ≤ 1 ∧
    ((coFind (runSchedule g (initCoState threads) sched).cache k).isSome = true →
      (runSchedule g (initCoState threads) sched).queries.count k = 1) := by
  have h0 : coInv (initCoState threads) := by
    intro k'
    simp [coInv, initCoState, coFind]
  have h := runSchedule_inv g sched (initCoState threads) h0 k
  constructor
  · rw [h]
    split <;> omega
  · intro hs
    rw [h, if_pos hs]

/-- Two threads racing on the same key, for the coalescing witness. -/
def coWitnessThreads : List ThreadState := [.start 5, .start 5]

/-- Witness for the coalescing theorem: two threads looking up key 5 under an
alternating schedule settle the key with exactly one gazetteer query. -/
theorem cache_coalescing_witness :
    (coFind (runSchedule (fun _ => ["a"]) (initCoState coWitnessThreads)
        [0, 1, 0, 1]).cache 5).isSome = true ∧
    (runSchedule (fun _ => ["a"]) (initCoState coWitnessThreads)
        [0, 1, 0, 1]).queries.count 5 = 1 :=
  ⟨by decide,
   (cache_coalescing (fun _ => ["a"]) coWitnessThreads [0, 1, 0, 1] 5).2
     (by decide)⟩

/-- Pipe behaviour in which every pipe reports no match, driving every record
to EXHAUSTED. -/
def noMatchAttempts : PipeName → Record → Option PipeOutcome := fun _ _ => none

/-- Counterexample to claim C5: a concrete record that ends EXHAUSTED with
`include_failed` set appears in `geo.evaluated` (with a null geometry and a
failure description) but the `results.csv` export is empty — the
`except KeyError: pass` of the export cell drops the failed entry instead of
writing it with a null geometry, so the record does not appear in the
exported result set. -/
theorem include_failed_export_counterexample :
    orchestrate noMatchAttempts notebookPipeOrder witnessRecord = none ∧
    (evaluateBatch noMatchAttempts true [witnessRecord]).length = 1 ∧
    (evaluateBatch noMatchAttempts true [witnessRecord]).all
      (fun e => e.location_id = "r0" && e.geometry.isNone) = true ∧
    exportResults (evaluateBatch noMatchAttempts true [witnessRecord]) = [] := by
  refine ⟨rfl, rfl, ?_, rfl⟩
  decide

/-- A matched record's CSV row: the row the export cell writes when the
entry has all of its keys. -/
def matchedRow (attempts : PipeName → Record → Option PipeOutcome)
    (r : Record) : Option CsvRow :=
  (orchestrate attempts notebookPipeOrder r).map
    (fun m => { record_number := r.id, geometry := m.geometry,
                radius_km := m.radius_km, description := m.citation })

/-- The `results.csv` export contains exactly the matched records' rows,
whatever the `include_failed` setting: failure entries lack keys and are
dropped by the `except KeyError: pass`. -/
theorem exportResults_evaluateBatch
    (attempts : PipeName → Record → Option PipeOutcome) (incl : Bool)
    (records : List Record) :
    exportResults (evaluateBatch attempts incl records) =
      records.filterMap (matchedRow attempts) := by
  induction records with
  | nil => rfl
  | cons r rs ih =>
      cases ho : orchestrate attempts notebookPipeOrder r with
      | some m =>
          simp only [evaluateBatch, exportResults, List.filterMap_cons, ho,
            matchedRow, Option.map_some]
          simp only [evaluateBatch, exportResults, matchedRow] at ih
          simp [exportRow, ih]
      | none =>
          cases incl <;>
            · simp only [evaluateBatch, exportResults, matchedRow] at ih ⊢
              simp only [List.filterMap_cons, ho, Option.map_none]
              simp only [Bool.false_eq_true, if_false, if_true] at ih ⊢
              simp [exportRow, ih, matchedRow, ho]

/-- Claim C5 as amended: with `include_failed` set, every EXHAUSTED record
appears in `geo.evaluated` with a null geometry and a failure description, and
with it unset only matched entries appear there; but the `results.csv` export
cell drops every entry lacking a key (`except KeyError: pass`), so EXHAUSTED
records never appear in the exported CSV — the CSV is identical whether or
not `include_failed` is set. -/
theorem include_failed_amended
    (attempts : PipeName → Record → Option PipeOutcome) (records : List Record) :
    exportResults (evaluateBatch attempts true records) =
      exportResults (evaluateBatch attempts false records) ∧
    (∀ r ∈ records, orchestrate attempts notebookPipeOrder r = none →
      ∃ e ∈ evaluateBatch attempts true records,
        e.location_id = r.id ∧ e.geometry = none ∧
        e.description = some ("Georeference failed: " ++ r.description)) ∧
    (∀ e ∈ evaluateBatch attempts false records, e.geometry.isSome = true) := by
  refine ⟨?_, ?_, ?_⟩
  · rw [exportResults_evaluateBatch, exportResults_evaluateBatch]
  · intro r hr ho
    refine ⟨{ location_id := r.id, geometry := none, radius_km := none,
              description := some ("Georeference failed: " ++ r.description) },
            ?_, rfl, rfl, rfl⟩
    unfold evaluateBatch
    exact List.mem_filterMap.mpr ⟨r, hr, by simp [ho]⟩
  · intro e he
    unfold evaluateBatch at he
    obtain ⟨a, ha, hfa⟩ := List.mem_filterMap.mp he
    cases ho : orchestrate attempts notebookPipeOrder a with
    | some m =>
        simp only [ho] at hfa
        cases hfa
        rfl
    | none =>
        simp [ho] at hfa

/-- Witness for the amended include_failed theorem at the concrete EXHAUSTED
record: the CSV export is unchanged by `include_failed` and the failure entry
is present in `geo.evaluated`. -/
theorem include_failed_amended_witness :
    exportResults (evaluateBatch noMatchAttempts true [witnessRecord]) =
      exportResults (evaluateBatch noMatchAttempts false [witnessRecord]) ∧
    ∃ e ∈ evaluateBatch noMatchAttempts true [witnessRecord],
      e.location_id = witnessRecord.id ∧ e.geometry = none ∧
      e.description = some ("Georeference failed: " ++ witnessRecord.description) :=
  ⟨(include_failed_amended noMatchAttempts [witnessRecord]).1,
   (include_failed_amended noMatchAttempts [witnessRecord]).2.1 witnessRecord
     (List.mem_cons_self _ _) rfl⟩

/-- The candidate ranking order is total. -/
theorem candLE_total (a b : Candidate) : candLE a b = true ∨ candLE b a = true := by
  unfold candLE
  rcases lt_trichotomy a.specificity b.specificity with h | h | h
  · right
    simp [h]
  · rcases le_total a.area b.area with h2 | h2
    · left
      simp [h, h2]
    · right
      simp [h.symm, h2]
  · left
    simp [h]

/-- The candidate ranking order is transitive. -/
theorem candLE_trans (a b c : Candidate) (h1 : candLE a b = true)
    (h2 : candLE b c = true) : candLE a c = true := by
  unfold candLE at h1 h2 ⊢
  simp only [Bool.or_eq_true, Bool.and_eq_true, decide_eq_true_eq] at h1 h2 ⊢
  rcases h1 with h1 | ⟨h1a, h1b⟩ <;> rcases h2 with h2 | ⟨h2a, h2b⟩
  · left
    omega
  · left
    omega
  · left
    omega
  · right
    exact ⟨by omega, le_trans h1b h2b⟩

/-- Membership in a sorted insertion. -/
theorem mem_insertLe {α : Type} (le : α → α → Bool) (x : α) (l : List α) (a : α) :
    a ∈ insertLe le x l ↔ a = x ∨ a ∈ l := by
  induction l with
  | nil => simp [insertLe]
  | cons y ys ih =>
      by_cases h : le x y = true
      · simp [insertLe, h, List.mem_cons]
      · simp [insertLe, h, List.mem_cons, ih]
        tauto

/-- Sorted insertion preserves sortedness (pairwise ordering). -/
theorem pairwise_insertLe {α : Type} (le : α → α → Bool)
    (htot : ∀ a b, le a b = true ∨ le b a = true)
    (htrans : ∀ a b c, le a b = true → le b c = true → le a c = true)
    (x : α) (l : List α) (hl : l.Pairwise (fun a b => le a b = true)) :
    (insertLe le x l).Pairwise (fun a b => le a b = true) := by
  induction l with
  | nil => simp [insertLe]
  | cons y ys ih =>
      rcases List.pairwise_cons.mp hl with ⟨hy, hys⟩
      by_cases h : le x y = true
      · simp only [insertLe, h, if_true]
        refine List.pairwise_cons.mpr ⟨?_, hl⟩
        intro z hz
        rcases List.mem_cons.mp hz with rfl | hz'
        · exact h
        · exact htrans x y z h (hy z hz')
      · simp only [insertLe, h, if_false]
        refine List.pairwise_cons.mpr ⟨?_, ih hys⟩
        intro z hz
        rcases (mem_insertLe le x ys z).mp hz with hzx | hz'
        · rw [hzx]
          rcases htot x y with h' | h'
          · exact absurd h' h
          · exact h'
        · exact hy z hz'

/-- Insertion sort produces a sorted list. -/
theorem sortLe_sorted {α : Type} (le : α → α → Bool)
    (htot : ∀ a b, le a b = true ∨ le b a = true)
    (htrans : ∀ a b c, le a b = true → le b c = true → le a c = true)
    (l : List α) :
    (sortLe le l).Pairwise (fun a b => le a b = true) := by
  induction l with
  | nil => exact List.Pairwise.nil
  | cons x xs ih => exact pairwise_insertLe le htot htrans x (sortLe le xs) ih

/-- Filtering through a sorted insertion of a dropped element. -/
theorem filter_insertLe_neg {α : Type} (le : α → α → Bool) (p : α → Bool)
    (x : α) (l : List α) (hx : p x = false) :
    (insertLe le x l).filter p = l.filter p := by
  induction l with
  | nil => simp [insertLe, hx]
  | cons y ys ih =>
      by_cases h : le x y = true
      · simp [insertLe, h, List.filter_cons, hx]
      · simp [insertLe, h, List.filter_cons, ih]

/-- Filtering through a sorted insertion of a kept element: on a sorted list,
insertion and filtering commute. -/
theorem filter_insertLe_pos {α : Type} (le : α → α → Bool) (p : α → Bool)
    (htrans : ∀ a b c, le a b = true → le b c = true → le a c = true)
    (x : α) (l : List α) (hx : p x = true)
    (hl : l.Pairwise (fun a b => le a b = true)) :
    (insertLe le x l).filter p = insertLe le x (l.filter p) := by
  induction l with
  | nil => simp [insertLe, hx]
  | cons y ys ih =>
      rcases List.pairwise_cons.mp hl with ⟨hy, hys⟩
      by_cases hxy : le x y = true
      · by_cases hpy : p y = true
        · simp [insertLe, hxy, List.filter_cons, hx, hpy]
        · have hhead : ∀ z ∈ ys.filter p, le x z = true := by
            intro z hz
            exact htrans x y z hxy (hy z (List.mem_of_mem_filter hz))
          cases hf : ys.filter p with
          | nil => simp [insertLe, hxy, List.filter_cons, hx, hpy, hf]
          | cons z zs =>
              have hxz : le x z = true :=
                hhead z (by rw [hf]; exact List.mem_cons_self z zs)
              simp [insertLe, hxy, List.filter_cons, hx, hpy, hf, hxz]
      · by_cases hpy : p y = true
        · simp [insertLe, hxy, List.filter_cons, hpy, ih hys]
        · simp [insertLe, hxy, List.filter_cons, hpy, ih hys]

/-- Stable insertion sort commutes with filtering. -/
theorem filter_sortLe {α : Type} (le : α → α → Bool) (p : α → Bool)
    (htot : ∀ a b, le a b = true ∨ le b a = true)
    (htrans : ∀ a b c, le a b = true → le b c = true → le a c = true)
    (l : List α) :
    (sortLe le l).filter p = sortLe le (l.filter p) := by
  induction l with
  | nil => rfl
  | cons x xs ih =>
      by_cases hx : p x = true
      · rw [sortLe, filter_insertLe_pos le p htrans x (sortLe le xs) hx
          (sortLe_sorted le htot htrans xs), ih]
        simp [List.filter_cons, hx, sortLe]
      · rw [sortLe, filter_insertLe_neg le p x (sortLe le xs)
          (eq_false_of_ne_true hx), ih]
        simp [List.filter_cons, hx]

/-- Field lookup on a record extended with a new hint field. -/
theorem lookupField_cons (f v : String) (record : List (String × String))
    (g : String) :
    lookupField ((f, v) :: record) g =
      if f = g then some v else lookupField record g := by
  by_cases h : f = g <;> simp [lookupField, List.find?_cons, h]

/-- The filtering walk commutes with a plain candidate filter. -/
theorem applyFilters_filter (record : List (String × String))
    (fields : List FieldSpec) (p : Candidate → Bool) (cs : List Candidate) :
    applyFilters record fields (cs.filter p) =
      (applyFilters record fields cs).filter p := by
  induction fields generalizing cs with
  | nil => rfl
  | cons fs rest ih =>
      unfold applyFilters
      cases lookupField record fs.field with
      | some v =>
          dsimp only
          rw [List.filter_comm]
          exact ih (cs.filter (fieldMatches fs v))
      | none => exact ih cs

/-- Extending the record with a field named by no entry of the field list
leaves the filtering walk unchanged. -/
theorem applyFilters_irrelevant (f v : String)
    (record : List (String × String)) (fields : List FieldSpec)
    (cs : List Candidate) (hocc : ∀ fs ∈ fields, fs.field ≠ f) :
    applyFilters ((f, v) :: record) fields cs = applyFilters record fields cs := by
  induction fields generalizing cs with
  | nil => rfl
  | cons fs rest ih =>
      have hne : fs.field ≠ f := hocc fs (List.mem_cons_self fs rest)
      have hrest : ∀ g ∈ rest, g.field ≠ f :=
        fun g hg => hocc g (List.mem_cons_of_mem fs hg)
      unfold applyFilters
      rw [lookupField_cons, if_neg (fun hh => hne hh.symm)]
      cases lookupField record fs.field with
      | some w =>
          dsimp only
          exact ih (cs.filter (fieldMatches fs w)) hrest
      | none => exact ih cs hrest

/-- Extending the record with a field that occurs exactly once in the field
list inserts exactly one extra candidate filter into the walk, and that
filter can be pulled out front. -/
theorem applyFilters_extend (record : List (String × String))
    (fspec : FieldSpec) (v : String) (pre post : List FieldSpec)
    (cs : List Candidate)
    (hpre : ∀ fs ∈ pre, fs.field ≠ fspec.field)
    (hpost : ∀ fs ∈ post, fs.field ≠ fspec.field)
    (hnone : lookupField record fspec.field = none) :
    applyFilters ((fspec.field, v) :: record) (pre ++ fspec :: post) cs =
      (applyFilters record (pre ++ fspec :: post) cs).filter
        (fieldMatches fspec v) := by
  induction pre generalizing cs with
  | nil =>
      simp only [List.nil_append]
      unfold applyFilters
      rw [lookupField_cons, if_pos rfl, hnone]
      dsimp only
      rw [applyFilters_irrelevant fspec.field v record post
        (cs.filter (fieldMatches fspec v)) hpost]
      exact applyFilters_filter record post (fieldMatches fspec v) cs
  | cons g rest ih =>
      have hg : g.field ≠ fspec.field := hpre g (List.mem_cons_self g rest)
      have hrest : ∀ fs ∈ rest, fs.field ≠ fspec.field :=
        fun fs hfs => hpre fs (List.mem_cons_of_mem g hfs)
      simp only [List.cons_append]
      unfold applyFilters
      rw [lookupField_cons, if_neg (fun hh => hg hh.symm)]
      cases lookupField record g.field with
      | some w =>
          dsimp only
          exact ih (cs.filter (fieldMatches g w)) hrest
      | none => exact ih cs hrest

/-- Adding a hierarchy field to the record turns `narrow` into a filter of
the original ranked result: the sort is stable, so filtering and ranking
commute. -/
theorem narrow_extend (cands : List Candidate)
    (record : List (String × String)) (fspec : FieldSpec) (v : String)
    (pre post : List FieldSpec)
    (hpre : ∀ fs ∈ pre, fs.field ≠ fspec.field)
    (hpost : ∀ fs ∈ post, fs.field ≠ fspec.field)
    (hnone : lookupField record fspec.field = none) :
    narrow cands ((fspec.field, v) :: record) (pre ++ fspec :: post) =
      (narrow cands record (pre ++ fspec :: post)).filter
        (fieldMatches fspec v) := by
  unfold narrow
  rw [applyFilters_extend record fspec v pre post cands hpre hpost hnone]
  exact (filter_sortLe candLE (fieldMatches fspec v) candLE_total candLE_trans
    (applyFilters record (pre ++ fspec :: post) cands)).symm

/-- Claim C4: HierarchyResolver narrowing is monotonic — adding a hierarchy
field (absent from the record, named exactly once in the ordered field list)
never increases the size of the returned candidate set, and when the added
field does not contradict the previously top-ranked candidate, that candidate
remains the top-ranked result (no more specific candidate can be introduced,
since narrowing never adds candidates). -/
theorem narrow_monotonic (cands : List Candidate)
    (record : List (String × String)) (pre post : List FieldSpec)
    (fspec : FieldSpec) (v : String)
    (hpre : ∀ fs ∈ pre, fs.field ≠ fspec.field)
    (hpost : ∀ fs ∈ post, fs.field ≠ fspec.field)
    (hnone : lookupField record fspec.field = none) :
    (narrow cands ((fspec.field, v) :: record) (pre ++ fspec :: post)).length ≤
      (narrow cands record (pre ++ fspec :: post)).length ∧
    ∀ top, (narrow cands record (pre ++ fspec :: post)).head? = some top →
      fieldMatches fspec v top = true →
      (narrow cands ((fspec.field, v) :: record)
        (pre ++ fspec :: post)).head? = some top := by
  have hext := narrow_extend cands record fspec v pre post hpre hpost hnone
  constructor
  · rw [hext]
    exact List.length_filter_le (fieldMatches fspec v) _
  · intro top htop hmatch
    rw [hext]
    cases hn : narrow cands record (pre ++ fspec :: post) with
    | nil =>
        rw [hn] at htop
        cases htop
    | cons a rest =>
        rw [hn] at htop
        have ha : a = top := by
          simpa using htop
        rw [ha]
        simp [List.filter_cons, hmatch]

/-- The entries of the shipped `ordered_field_list` that precede
`state_province`. -/
def oflBefore : List FieldSpec := orderedFieldList.take 18

/-- The `state_province` entry of the shipped `ordered_field_list`. -/
def oflState : FieldSpec :=
  ⟨"state_province", ["ADM1", "ADM1H", "TERR", "LAND", "RGN"]⟩

/-- The entries of the shipped `ordered_field_list` that follow
`state_province`. -/
def oflAfter : List FieldSpec := orderedFieldList.drop 19

/-- A Springfield candidate inside Missouri, the more specific match. -/
def candSpringfieldMO : Candidate :=
  { feature := ⟨"gn-4409896", "Springfield", "PPL"⟩,
    ancestry := [⟨"us-mo", "Missouri", "ADM1"⟩, ⟨"us", "United States", "PCLI"⟩],
    specificity := 3, area := 1 }

/-- A Springfield candidate inside Illinois, the weaker match. -/
def candSpringfieldIL : Candidate :=
  { feature := ⟨"gn-4250542", "Springfield", "PPL"⟩,
    ancestry := [⟨"us-il", "Illinois", "ADM1"⟩, ⟨"us", "United States", "PCLI"⟩],
    specificity := 2, area := 1 }

/-- Hint fields of the witness record before the state is added. -/
def witnessHints : List (String × String) := [("country", "United States")]

/-- Witness for the narrowing-monotonicity theorem: adding the correct
`state_province` hint to the concrete two-Springfield ambiguity does not grow
the candidate set and keeps the Missouri candidate on top. -/
theorem narrow_monotonic_witness :
    oflBefore ++ oflState :: oflAfter = orderedFieldList ∧
    (narrow [candSpringfieldMO, candSpringfieldIL]
        (("state_province", "Missouri") :: witnessHints)
        (oflBefore ++ oflState :: oflAfter)).length ≤
      (narrow [candSpringfieldMO, candSpringfieldIL] witnessHints
        (oflBefore ++ oflState :: oflAfter)).length ∧
    (narrow [candSpringfieldMO, candSpringfieldIL]
        (("state_province", "Missouri") :: witnessHints)
        (oflBefore ++ oflState :: oflAfter)).head? = some candSpringfieldMO :=
  ⟨rfl,
   (narrow_monotonic [candSpringfieldMO, candSpringfieldIL] witnessHints
      oflBefore oflAfter oflState "Missouri" (by decide) (by decide) (by decide)).1,
   (narrow_monotonic [candSpringfieldMO, candSpringfieldIL] witnessHints
      oflBefore oflAfter oflState "Missouri" (by decide) (by decide) (by decide)).2
     candSpringfieldMO (by decide) (by decide)⟩

end NmnhMsTools
